import Mathlib

/-!
Shallow embedding of the recording/transcription core of the repository:
`src/hooks/useRealtimeRecorder.ts` and `src/hooks/useOfflineRecorder.ts`.

State of a hook instance (React `useState` values plus `useRef` cells plus the
observable state of the platform `MediaRecorder` / `SpeechRecognition`
objects) is modelled as one record.  React `setX` state updates are applied
synchronously to the record; `useRef` cells are mutable in the source and are
also plain fields here.

One piece of React semantics matters and is modelled explicitly: an event
handler installed inside `startRecording` closes over the `isRecording` /
`isPaused` state *constants of the render that created the callback*.  A later
`setIsRecording(true)` re-render produces new constants but does not change
what the already-installed handler captured.  The `onendIsRecording` /
`onendIsPaused` fields hold those captured values.  Ref cells
(`recognitionRef`, `chunksRef`, ...) are read through the ref at event time,
so they are modelled by the current field value.

Time is in milliseconds (`Date.now()`); durations shown to the user are in
seconds.  Blobs are modelled as lists of chunks; a chunk is an opaque payload
plus its byte size (`event.data.size`).
-/

/-- State of the platform `MediaRecorder` (`mediaRecorder.state`). -/
inductive MRState
  | inactive
  | recording
  | paused
deriving DecidableEq, Repr

/-- An audio chunk delivered by a `dataavailable` event: opaque payload plus
its byte size (`event.data.size`). -/
structure Chunk where
  data : Nat
  size : Nat
deriving DecidableEq, Repr

/-- Error taxonomy of the spec for lifecycle operations.  The source code of
both hooks contains no `throw` at all, so no embedded operation ever actually
produces it; it exists so that the absence of an `InvalidState` failure can be
stated. -/
inductive RecError
  | invalidState
deriving DecidableEq, Repr

/-- One recognition result (`event.results[i]`): its `isFinal` flag and the
transcript of its first alternative (`event.results[i][0].transcript`), which
is all the code reads. -/
structure SRResult where
  isFinal : Bool
  transcript : String
deriving DecidableEq, Repr

/-- State of one `useRealtimeRecorder` hook instance. -/
structure RecState where
  isRecording : Bool
  isPaused : Bool
  duration : Nat
  liveTranscript : String
  error : Option String
  chunks : List Chunk
  startTime : Nat
  pausedDuration : Nat
  finalTranscript : String
  interimTranscript : String
  hasMediaRecorder : Bool
  mrState : MRState
  hasRecognition : Bool
  recognitionRunning : Bool
  onendIsRecording : Bool
  onendIsPaused : Bool
  timerRunning : Bool
  streamHeld : Bool
deriving DecidableEq, Repr

/-- The hook's initial state: all `useState(false)` / `useState(0)` /
`useState('')` initial values, refs null/empty. -/
def initialRecState : RecState where
  isRecording := false
  isPaused := false
  duration := 0
  liveTranscript := ""
  error := none
  chunks := []
  startTime := 0
  pausedDuration := 0
  finalTranscript := ""
  interimTranscript := ""
  hasMediaRecorder := false
  mrState := .inactive
  hasRecognition := false
  recognitionRunning := false
  onendIsRecording := false
  onendIsPaused := false
  timerRunning := false
  streamHeld := false

/-- Error message set when `getUserMedia` rejects (catch block of
`startRecording`). -/
def micError : String := "Could not access microphone. Please ensure microphone permissions are granted."

/-- Error message set when the `SpeechRecognition` constructor is absent. -/
def srError : String := "Speech recognition not supported in this browser. Try Chrome or Edge."

/-- `startRecording` of `useRealtimeRecorder.ts` (lines 52-160).  `now` is
`Date.now()` at the moment the media recorder and timer start; `granted` is
whether `getUserMedia` resolves; `hasSR` is whether the `SpeechRecognition`
constructor exists.  The body first clears error/chunks/duration/transcripts,
then on success installs the recorder and recognition handlers.  The `onend`
handler captures the `isRecording` / `isPaused` values of the state at the
time the invoked `startRecording` callback was created — i.e. the values in
`s`, before `setIsRecording(true)` takes effect. -/
def startRecording (s : RecState) (now : Nat) (granted : Bool) (hasSR : Bool) : RecState :=
  let s0 := { s with error := none, chunks := [], pausedDuration := 0, duration := 0,
                     liveTranscript := "", finalTranscript := "", interimTranscript := "" }
  if granted then
    let s1 := { s0 with streamHeld := true, hasMediaRecorder := true, mrState := MRState.recording }
    let s2 := if hasSR then
        { s1 with onendIsRecording := s.isRecording, onendIsPaused := s.isPaused,
                  hasRecognition := true, recognitionRunning := true }
      else { s1 with error := some srError }
    { s2 with startTime := now, isRecording := true, isPaused := false, timerRunning := true }
  else { s0 with error := some micError }

/-- `mediaRecorder.ondataavailable` (lines 91-95): push the chunk only when
`event.data.size > 0`. -/
def dataavailable (s : RecState) (c : Chunk) : RecState :=
  if 0 < c.size then { s with chunks := s.chunks ++ [c] } else s

/-- The loop body of `recognition.onresult` (lines 111-118): partition the
event's results into the space-joined finalized additions and the
concatenated interim text. -/
def partResults (rs : List SRResult) : String × String :=
  rs.foldl (fun acc r =>
    if r.isFinal then (acc.1 ++ r.transcript ++ " ", acc.2) else (acc.1, acc.2 ++ r.transcript))
    ("", "")

/-- `recognition.onresult` of `useRealtimeRecorder.ts` (lines 107-126):
append newly finalized text (only when non-empty, per `if (final)`), replace
the interim ref wholesale, and display `finalized ++ interim`. -/
def onresult (s : RecState) (rs : List SRResult) : RecState :=
  let p := partResults rs
  let fin := if p.1 ≠ "" then s.finalTranscript ++ p.1 else s.finalTranscript
  { s with finalTranscript := fin, interimTranscript := p.2, liveTranscript := fin ++ p.2 }

/-- `recognition.onerror` of `useRealtimeRecorder.ts` (lines 128-133):
`console.error` always (second component of the result is the logged line),
and `setError` for every error other than `'no-speech'`. -/
def onerror (s : RecState) (e : String) : RecState × Option String :=
  ((if e ≠ "no-speech" then { s with error := some ("Speech recognition error: " ++ e) } else s),
   some ("Speech recognition error: " ++ e))

/-- `recognition.onend` of `useRealtimeRecorder.ts` (lines 135-144): restart
when the *closure-captured* `isRecording` / `isPaused` say the session is
active and `recognitionRef.current` is non-null. -/
def onend (s : RecState) : RecState :=
  if s.onendIsRecording ∧ ¬ s.onendIsPaused ∧ s.hasRecognition then
    { s with recognitionRunning := true }
  else s

/-- The platform event "the recognition stream ended": the engine stops the
stream and then fires the `onend` handler. -/
def recognitionEnded (s : RecState) : RecState :=
  onend { s with recognitionRunning := false }

/-- `pauseRecording` of `useRealtimeRecorder.ts` (lines 162-178): guarded by
`mediaRecorderRef.current && state === 'recording'`; freezes the displayed
duration into `pausedDurationRef`, stops the timer and the recognition
stream.  The body contains no `throw`. -/
def pauseRecording (s : RecState) : RecState :=
  if s.hasMediaRecorder ∧ s.mrState = MRState.recording then
    { s with mrState := MRState.paused, pausedDuration := s.duration, isPaused := true,
             timerRunning := false,
             recognitionRunning := if s.hasRecognition then false else s.recognitionRunning }
  else s

/-- `resumeRecording` of `useRealtimeRecorder.ts` (lines 180-196): guarded by
`state === 'paused'`; resets the wall-clock reference and restarts timer and
recognition. -/
def resumeRecording (s : RecState) (now : Nat) : RecState :=
  if s.hasMediaRecorder ∧ s.mrState = MRState.paused then
    { s with mrState := MRState.recording, startTime := now, isPaused := false,
             timerRunning := true,
             recognitionRunning := if s.hasRecognition then true else s.recognitionRunning }
  else s

/-- `pauseRecording` viewed as a fallible call.  Every path of the source
body returns normally (the only call that could throw,
`recognitionRef.current.stop()`, is wrapped in `try`/`catch`), so every path
here is `.ok`. -/
def pauseRecordingE (s : RecState) : Except RecError RecState :=
  Except.ok (pauseRecording s)

/-- `resumeRecording` viewed as a fallible call; the source body never
throws, so every path is `.ok`. -/
def resumeRecordingE (s : RecState) (now : Nat) : Except RecError RecState :=
  Except.ok (resumeRecording s now)

/-- One tick of the `setInterval(..., 1000)` timer (lines 38-43):
`duration := floor((Date.now() - startTimeRef) / 1000) + pausedDurationRef`. -/
def timerTick (s : RecState) (now : Nat) : RecState :=
  if s.timerRunning then
    { s with duration := (now - s.startTime) / 1000 + s.pausedDuration }
  else s

/-- `stopRecording` of `useRealtimeRecorder.ts` (lines 198-245).  Returns the
post-call state together with the resolved `{audioBlob, transcript}` pair.
Note what the code does *not* do: `mediaRecorderRef` and
`finalTranscriptRef` are not reset (only `startRecording` resets them). -/
def stopRecording (s : RecState) : RecState × Option (List Chunk) × String :=
  let s1 := { s with timerRunning := false, isRecording := false, isPaused := false,
                     recognitionRunning := if s.hasRecognition then false else s.recognitionRunning,
                     hasRecognition := false }
  if ¬ s1.hasMediaRecorder then
    (s1, none, s1.finalTranscript)
  else if s1.mrState ≠ MRState.inactive then
    ({ s1 with mrState := MRState.inactive, chunks := [], streamHeld := false },
     some s1.chunks, s1.finalTranscript)
  else
    (s1, none, s1.finalTranscript)

/-- `stopRecording` viewed as a fallible call; the source body never throws
(the promise always resolves), so every path is `.ok`. -/
def stopRecordingE (s : RecState) : Except RecError (RecState × Option (List Chunk) × String) :=
  Except.ok (stopRecording s)

/-!
Embedding of `useOfflineRecorder.ts`.  It shares the realtime recorder's
structure and adds: a persistent IndexedDB object store of checkpoint
records (key path `id`), a `recordingId` ref, and checkpoint writes every
5th chunk and on pause.  Its `onerror` handler only logs (it never calls
`setError`), and it keeps no interim-transcript ref.  IndexedDB failures are
modelled by boolean oracles (`saveFails` / `deleteFails`) passed to the
operations that touch the store.
-/

/-- A record of the `recordings` object store:
`{ id, chunks, timestamp, synced }` (lines 4-14, 84-89). -/
structure CheckpointRecord where
  id : String
  chunks : List Chunk
  timestamp : Nat
  synced : Bool
deriving DecidableEq, Repr

/-- `database.put('recordings', r)` with key path `id`: replace the record
with the same key, or append. -/
def storePut (st : List CheckpointRecord) (r : CheckpointRecord) : List CheckpointRecord :=
  if st.any (fun x => x.id = r.id) then st.map (fun x => if x.id = r.id then r else x)
  else st ++ [r]

/-- `database.delete('recordings', id)`. -/
def storeDelete (st : List CheckpointRecord) (id : String) : List CheckpointRecord :=
  st.filter (fun x => x.id ≠ id)

/-- Look up the record stored under `id`. -/
def storeGet (st : List CheckpointRecord) (id : String) : Option CheckpointRecord :=
  st.find? (fun x => x.id = id)

/-- State of one `useOfflineRecorder` hook instance. -/
structure OffState where
  isRecording : Bool
  isPaused : Bool
  duration : Nat
  liveTranscript : String
  error : Option String
  chunks : List Chunk
  startTime : Nat
  pausedDuration : Nat
  finalTranscript : String
  recordingId : String
  store : List CheckpointRecord
  hasMediaRecorder : Bool
  mrState : MRState
  hasRecognition : Bool
  recognitionRunning : Bool
  onendIsRecording : Bool
  onendIsPaused : Bool
  timerRunning : Bool
  streamHeld : Bool
deriving DecidableEq, Repr

/-- Initial state of `useOfflineRecorder` over an empty object store. -/
def initialOffState : OffState where
  isRecording := false
  isPaused := false
  duration := 0
  liveTranscript := ""
  error := none
  chunks := []
  startTime := 0
  pausedDuration := 0
  finalTranscript := ""
  recordingId := ""
  store := []
  hasMediaRecorder := false
  mrState := .inactive
  hasRecognition := false
  recognitionRunning := false
  onendIsRecording := false
  onendIsPaused := false
  timerRunning := false
  streamHeld := false

/-- `saveToIndexedDB` of `useOfflineRecorder.ts` (lines 80-94): write a
checkpoint record only when there are chunks and a session id; a write
failure (`saveFails`) is caught, logged with `console.warn` and swallowed —
the state (including `error`) is otherwise untouched. -/
def saveToIndexedDB (s : OffState) (now : Nat) (saveFails : Bool) : OffState :=
  if 0 < s.chunks.length ∧ s.recordingId ≠ "" then
    if saveFails then s
    else { s with store := storePut s.store ⟨s.recordingId, s.chunks, now, false⟩ }
  else s

/-- `startRecording` of `useOfflineRecorder.ts` (lines 110-211); as in the
realtime hook, but it also assigns a fresh time-based `recordingId` and, when
the recognition constructor is absent, silently skips recognition (no
error message is set in this hook). -/
def offStartRecording (s : OffState) (now : Nat) (granted : Bool) (hasSR : Bool) : OffState :=
  let s0 := { s with error := none, chunks := [], pausedDuration := 0, duration := 0,
                     liveTranscript := "", finalTranscript := "",
                     recordingId := "recording_" ++ toString now }
  if granted then
    let s1 := { s0 with streamHeld := true, hasMediaRecorder := true, mrState := MRState.recording }
    let s2 := if hasSR then
        { s1 with onendIsRecording := s.isRecording, onendIsPaused := s.isPaused,
                  hasRecognition := true, recognitionRunning := true }
      else s1
    { s2 with startTime := now, isRecording := true, isPaused := false, timerRunning := true }
  else { s0 with error := some micError }

/-- `mediaRecorder.ondataavailable` of `useOfflineRecorder.ts` (lines
146-154): push chunks with `size > 0`, and after every 5th buffered chunk
invoke `saveToIndexedDB`. -/
def offDataavailable (s : OffState) (c : Chunk) (now : Nat) (saveFails : Bool) : OffState :=
  if 0 < c.size then
    let s1 := { s with chunks := s.chunks ++ [c] }
    if s1.chunks.length % 5 = 0 then saveToIndexedDB s1 now saveFails else s1
  else s

/-- `recognition.onresult` of `useOfflineRecorder.ts` (lines 165-183): same
partition as the realtime hook, but no interim ref is kept. -/
def offOnresult (s : OffState) (rs : List SRResult) : OffState :=
  let p := partResults rs
  let fin := if p.1 ≠ "" then s.finalTranscript ++ p.1 else s.finalTranscript
  { s with finalTranscript := fin, liveTranscript := fin ++ p.2 }

/-- `recognition.onerror` of `useOfflineRecorder.ts` (lines 185-189): it only
logs (second component), and only for errors other than `'no-speech'` and
`'network'`; it never calls `setError`, so the state is returned unchanged. -/
def offOnerror (s : OffState) (e : String) : OffState × Option String :=
  (s, if e ≠ "no-speech" ∧ e ≠ "network" then some ("Speech recognition error: " ++ e) else none)

/-- `recognition.onend` of `useOfflineRecorder.ts` (lines 191-197): same
stale-closure-guarded restart as the realtime hook. -/
def offOnend (s : OffState) : OffState :=
  if s.onendIsRecording ∧ ¬ s.onendIsPaused ∧ s.hasRecognition then
    { s with recognitionRunning := true }
  else s

/-- The recognition stream of the offline hook ends and fires `onend`. -/
def offRecognitionEnded (s : OffState) : OffState :=
  offOnend { s with recognitionRunning := false }

/-- `pauseRecording` of `useOfflineRecorder.ts` (lines 213-227): same guard
as the realtime hook, plus an immediate `saveToIndexedDB()` call. -/
def offPauseRecording (s : OffState) (now : Nat) (saveFails : Bool) : OffState :=
  if s.hasMediaRecorder ∧ s.mrState = MRState.recording then
    let s1 := { s with mrState := MRState.paused, pausedDuration := s.duration, isPaused := true,
                       timerRunning := false }
    let s2 := saveToIndexedDB s1 now saveFails
    { s2 with recognitionRunning := if s2.hasRecognition then false else s2.recognitionRunning }
  else s

/-- `resumeRecording` of `useOfflineRecorder.ts` (lines 229-242). -/
def offResumeRecording (s : OffState) (now : Nat) : OffState :=
  if s.hasMediaRecorder ∧ s.mrState = MRState.paused then
    { s with mrState := MRState.recording, startTime := now, isPaused := false,
             timerRunning := true,
             recognitionRunning := if s.hasRecognition then true else s.recognitionRunning }
  else s

/-- `stopRecording` of `useOfflineRecorder.ts` (lines 244-293): as in the
realtime hook, but the `onstop` handler additionally deletes the
checkpoint record for `recordingId`; a deletion failure (`deleteFails`) is
caught and swallowed. -/
def offStopRecording (s : OffState) (deleteFails : Bool) :
    OffState × Option (List Chunk) × String :=
  let s1 := { s with timerRunning := false, isRecording := false, isPaused := false,
                     recognitionRunning := if s.hasRecognition then false else s.recognitionRunning,
                     hasRecognition := false }
  if ¬ s1.hasMediaRecorder then
    (s1, none, s1.finalTranscript)
  else if s1.mrState ≠ MRState.inactive then
    let s2 := if deleteFails then s1 else { s1 with store := storeDelete s1.store s1.recordingId }
    ({ s2 with mrState := MRState.inactive, chunks := [], streamHeld := false },
     some s1.chunks, s1.finalTranscript)
  else
    (s1, none, s1.finalTranscript)

/-!
Trace machinery for the duration accounting (claim about `startTimer` /
`pauseRecording` / `resumeRecording`).  A session trace is generated from a
list of recording segments: `segs = [(d1, p1), ..., (dn, pn)]` means "record
for `d1` ms, pause for `p1` ms, resume, ...", followed by a final recording
stretch of `last` ms before `stop`.  While the timer runs, the
`setInterval(..., 1000)` callback fires 1000 ms after the timer (re)start and
then every 1000 ms, i.e. at offsets 1000, 2000, ... within the segment; a
segment of `d` ms therefore contains `d / 1000` ticks. -/

/-- An externally observable event acting on the realtime recorder state. -/
inductive TEvent
  | tick (t : Nat)
  | pause (t : Nat)
  | resume (t : Nat)
deriving DecidableEq, Repr

/-- Apply one event. -/
def stepEv (s : RecState) (e : TEvent) : RecState :=
  match e with
  | .tick t => timerTick s t
  | .pause _ => pauseRecording s
  | .resume t => resumeRecording s t

/-- Run a list of events. -/
def runEvents (s : RecState) (es : List TEvent) : RecState :=
  es.foldl stepEv s

/-- The timer ticks inside one recording segment that starts at wall-clock
`start` and lasts `d` ms. -/
def tickEvents (start d : Nat) : List TEvent :=
  (List.range (d / 1000)).map fun k => TEvent.tick (start + 1000 * (k + 1))

/-- The full event trace of a session: alternating record/pause segments
followed by a last recording stretch. -/
def segEvents : Nat → List (Nat × Nat) → Nat → List TEvent
  | t, [], last => tickEvents t last
  | t, (d, p) :: rest, last =>
      tickEvents t d ++ TEvent.pause (t + d) ::
        TEvent.resume (t + d + p) :: segEvents (t + d + p) rest last

/-- Update only the displayed duration. -/
def setDuration (s : RecState) (d : Nat) : RecState := { s with duration := d }

/-- The recorder is inside a recording segment that began (or resumed) at
wall-clock `t` with `acc` seconds accumulated before the last resume. -/
def Seg (s : RecState) (t acc : Nat) : Prop :=
  s.timerRunning = true ∧ s.mrState = MRState.recording ∧ s.hasMediaRecorder = true ∧
  s.startTime = t ∧ s.pausedDuration = acc ∧ s.duration = acc

/-- Feed a list of `dataavailable` events to the realtime recorder. -/
def feedChunks (s : RecState) (cs : List Chunk) : RecState :=
  cs.foldl dataavailable s

/-- Realtime recorder directly after a successful `startRecording` from the
initial state (device granted, recognition available, `Date.now() = 0`). -/
def recAfterStart : RecState := startRecording initialRecState 0 true true

/-- Realtime recorder after starting and immediately stopping a session. -/
def recAfterStop : RecState := (stopRecording recAfterStart).1

/-- Realtime recorder after a session in which one recognition event
finalized the text `"hello"`. -/
def recWithHello : RecState := onresult recAfterStart [⟨true, "hello"⟩]

/-- State left behind by stopping the `recWithHello` session. -/
def recAfterFirstStop : RecState := (stopRecording recWithHello).1

/-- Offline recorder directly after a successful `startRecording` from the
initial state (`Date.now() = 0`, so `recordingId = "recording_0"`). -/
def offAfterStart : OffState := offStartRecording initialOffState 0 true true

/-- Offline recorder after one non-empty chunk arrived (no checkpoint yet:
1 % 5 ≠ 0). -/
def offOneChunk : OffState := offDataavailable offAfterStart ⟨0, 5⟩ 1000 false

/-! Helper lemmas shared by several claims. -/

/-- `pauseRecording` is the identity whenever the media recorder is not in
the `recording` state. -/
theorem pauseRecording_noop (s : RecState) (h : s.mrState ≠ MRState.recording) :
    pauseRecording s = s := by
  unfold pauseRecording
  rw [if_neg]
  exact fun hc => h hc.2

/-- `pauseRecording` is the identity whenever no media recorder exists. -/
theorem pauseRecording_noop_noMR (s : RecState) (h : s.hasMediaRecorder = false) :
    pauseRecording s = s := by
  unfold pauseRecording
  rw [if_neg]
  exact fun hc => by simp [h] at hc

/-- `resumeRecording` is the identity whenever the media recorder is not in
the `paused` state. -/
theorem resumeRecording_noop (s : RecState) (t : Nat) (h : s.mrState ≠ MRState.paused) :
    resumeRecording s t = s := by
  unfold resumeRecording
  rw [if_neg]
  exact fun hc => h hc.2

/-- `resumeRecording` is the identity whenever no media recorder exists. -/
theorem resumeRecording_noop_noMR (s : RecState) (t : Nat) (h : s.hasMediaRecorder = false) :
    resumeRecording s t = s := by
  unfold resumeRecording
  rw [if_neg]
  exact fun hc => by simp [h] at hc

/-- After `stopRecording`, either the media recorder is `inactive` or none
was ever created. -/
theorem stopRecording_post (s : RecState) :
    (stopRecording s).1.mrState = MRState.inactive ∨
      (stopRecording s).1.hasMediaRecorder = false := by
  unfold stopRecording
  by_cases h1 : s.hasMediaRecorder = false
  · right
    simp [h1]
  · by_cases h2 : s.mrState = MRState.inactive <;> left <;> simp [h1, h2]

/-- C1 (code bug evidence): a session is started from the initial state with
the device granted and recognition available; the hook reports
`isRecording = true`, `isPaused = false` and a running recognition stream.
When the recognition stream then ends, the `onend` handler consults the
`isRecording` / `isPaused` values captured by its closure at the time
`startRecording` ran — which are still `false` — and therefore does *not*
restart the stream, in both the realtime and the offline hook, contradicting
the claimed (and intended, per the source comment "Restart recognition if
still recording") immediate auto-restart. -/
theorem c1_onend_stale_closure_prevents_restart :
    recAfterStart.isRecording = true ∧ recAfterStart.isPaused = false ∧
    recAfterStart.recognitionRunning = true ∧
    recAfterStart.onendIsRecording = false ∧
    (recognitionEnded recAfterStart).recognitionRunning = false ∧
    offAfterStart.isRecording = true ∧ offAfterStart.isPaused = false ∧
    offAfterStart.recognitionRunning = true ∧
    (offRecognitionEnded offAfterStart).recognitionRunning = false := by
  decide

/-- C2 (counterexample): after a session is started and stopped, invoking
`pauseRecording` or `resumeRecording` does not fail with an `InvalidState`
error — the call returns normally (`.ok`), leaves the state bit-for-bit
unchanged, and surfaces no error message. -/
theorem c2_pause_after_stop_counterexample :
    pauseRecordingE recAfterStop = Except.ok recAfterStop ∧
    resumeRecordingE recAfterStop 9999 = Except.ok recAfterStop ∧
    recAfterStop.error = none := by
  refine ⟨?_, ?_, by decide⟩
  · unfold pauseRecordingE
    rw [pauseRecording_noop _ (by decide)]
  · unfold resumeRecordingE
    rw [resumeRecording_noop _ _ (by decide)]

/-- C2 (amended): every `pauseRecording` / `resumeRecording` invocation made
after `stopRecording` is a silent no-op — it returns normally with the state
unchanged; no `InvalidState` (or any other) failure is produced. -/
theorem c2_transitions_after_stop_are_silent_noops (s : RecState) (t : Nat) :
    pauseRecordingE (stopRecording s).1 = Except.ok (stopRecording s).1 ∧
    resumeRecordingE (stopRecording s).1 t = Except.ok (stopRecording s).1 := by
  rcases stopRecording_post s with h | h
  · constructor
    · unfold pauseRecordingE
      rw [pauseRecording_noop _ (by rw [h]; decide)]
    · unfold resumeRecordingE
      rw [resumeRecording_noop _ _ (by rw [h]; decide)]
  · constructor
    · unfold pauseRecordingE
      rw [pauseRecording_noop_noMR _ h]
    · unfold resumeRecordingE
      rw [resumeRecording_noop_noMR _ _ h]

/-- C9: `pauseRecording` outside the `recording` state and `resumeRecording`
outside the `paused` state are silent no-ops (identity on the whole state),
and a second consecutive `pauseRecording` changes nothing: lifecycle state,
duration and buffered chunks are all unchanged. -/
theorem c9_pause_resume_outside_valid_state_noop (s : RecState) (t : Nat) :
    (s.mrState ≠ MRState.recording → pauseRecording s = s) ∧
    (s.mrState ≠ MRState.paused → resumeRecording s t = s) ∧
    pauseRecording (pauseRecording s) = pauseRecording s := by
  refine ⟨pauseRecording_noop s, resumeRecording_noop s t, ?_⟩
  by_cases h : s.hasMediaRecorder = true ∧ s.mrState = MRState.recording
  · have hp : (pauseRecording s).mrState = MRState.paused := by
      unfold pauseRecording
      rw [if_pos h]
    exact pauseRecording_noop _ (by rw [hp]; decide)
  · have hs : pauseRecording s = s := by
      unfold pauseRecording
      rw [if_neg h]
    rw [hs]
    exact hs

/-- Witness for C9 at concrete states: pausing after stop is a no-op,
resuming while recording is a no-op, and a double pause equals a single
pause. -/
theorem c9_witness :
    pauseRecording recAfterStop = recAfterStop ∧
    resumeRecording recAfterStart 5 = recAfterStart ∧
    pauseRecording (pauseRecording recAfterStart) = pauseRecording recAfterStart :=
  ⟨(c9_pause_resume_outside_valid_state_noop recAfterStop 5).1 (by decide),
   (c9_pause_resume_outside_valid_state_noop recAfterStart 5).2.1 (by decide),
   (c9_pause_resume_outside_valid_state_noop recAfterStart 5).2.2⟩

/-- C5 (counterexample): the claim covers `Idle` reached after a previous
session completed.  After a session whose recognition finalized `"hello"` is
stopped, a second defensive `stopRecording` call returns
`{audioBlob: null, transcript: "hello "}` — the transcript is *not* `""`,
because `finalTranscriptRef` is only reset by `startRecording`. -/
theorem c5_second_stop_returns_old_transcript :
    (stopRecording recWithHello).2 = (some [], "hello ") ∧
    recAfterFirstStop.isRecording = false ∧
    recAfterFirstStop.mrState = MRState.inactive ∧
    (stopRecording recAfterFirstStop).2 = (none, "hello ") ∧
    "hello " ≠ "" := by
  decide

/-- C5 (amended): `stopRecording` never throws and, from any state whose
media recorder is `inactive` (the initial `Idle`, and `Idle` after a
completed session, since `mediaRecorderRef` is never cleared), returns a null
audio blob together with the current value of `finalTranscriptRef`: `""` in
the initial state, but the previous session's finalized transcript after a
completed session (the ref is reset only by `startRecording`). -/
theorem c5_stop_idle_returns_null_blob (s : RecState) (h : s.mrState = MRState.inactive) :
    (stopRecording initialRecState).2 = (none, "") ∧
    (stopRecording s).2 = (none, s.finalTranscript) ∧
    stopRecordingE s = Except.ok (stopRecording s) := by
  refine ⟨by decide, ?_, rfl⟩
  unfold stopRecording
  by_cases h1 : s.hasMediaRecorder = false
  · simp [h1]
  · simp [h1, h]

/-- Witness for C5 at the initial `Idle` state. -/
theorem c5_stop_idle_witness :
    (stopRecording initialRecState).2 = (none, "") ∧
    (stopRecording initialRecState).2 = (none, initialRecState.finalTranscript) ∧
    stopRecordingE initialRecState = Except.ok (stopRecording initialRecState) :=
  c5_stop_idle_returns_null_blob initialRecState rfl

/-- C6 (counterexample): a `'network'` recognition error in the *realtime*
recorder is surfaced (it sets the user-facing `error`), contradicting
"network-hiccup errors are swallowed"; and an `'audio-capture'` error in the
*offline* recorder changes nothing at all — no error is surfaced —
contradicting "every other recognition error is surfaced upward". -/
theorem c6_network_and_fatal_routing_counterexample :
    recAfterStart.error = none ∧
    (onerror recAfterStart "network").1.error = some "Speech recognition error: network" ∧
    offAfterStart.error = none ∧
    (offOnerror offAfterStart "audio-capture").1 = offAfterStart ∧
    (offOnerror offAfterStart "audio-capture").1.error = none := by
  decide

/-- C6 (amended): in the realtime recorder only `'no-speech'` is swallowed;
every other error string — including `'network'` — is surfaced by setting
`error` (while the handler always logs).  In the offline recorder *every*
recognition error leaves the state untouched (swallowed), and only errors
other than `'no-speech'`/`'network'` are even logged.  In neither hook does a
recognition error stop the audio recording: the media-recorder state, the
buffered chunks and `isRecording` are unchanged. -/
theorem c6_recognition_error_routing (s : RecState) (so : OffState) (e : String) :
    ((onerror s e).1.error =
      if e = "no-speech" then s.error else some ("Speech recognition error: " ++ e)) ∧
    (onerror s e).1.mrState = s.mrState ∧
    (onerror s e).1.chunks = s.chunks ∧
    (onerror s e).1.isRecording = s.isRecording ∧
    (onerror s e).2 = some ("Speech recognition error: " ++ e) ∧
    (offOnerror so e).1 = so ∧
    ((offOnerror so e).2 = none ↔ e = "no-speech" ∨ e = "network") := by
  unfold onerror offOnerror
  by_cases h1 : e = "no-speech"
  · simp [h1]
  · by_cases h2 : e = "network" <;> simp [h1, h2]

/-- Feeding only positive-size chunks appends exactly those chunks, in
order, to the buffer. -/
theorem feedChunks_append (s : RecState) (cs : List Chunk) (h : ∀ c ∈ cs, 0 < c.size) :
    feedChunks s cs = { s with chunks := s.chunks ++ cs } := by
  induction cs generalizing s with
  | nil => simp [feedChunks]
  | cons c cs ih =>
      have hc : 0 < c.size := h c (by simp)
      have hcs : ∀ x ∈ cs, 0 < x.size := fun x hx => h x (by simp [hx])
      show feedChunks (dataavailable s c) cs = _
      rw [show dataavailable s c = { s with chunks := s.chunks ++ [c] } by
        unfold dataavailable
        rw [if_pos hc]]
      rw [ih _ hcs]
      simp

/-- C7: a session that buffered exactly the non-empty chunks `cs` (in
emission order) finalizes, at `stopRecording`, into a blob that is exactly
the concatenation of those chunks in FIFO order — none dropped, none
duplicated, none reordered. -/
theorem c7_blob_is_fifo_concatenation (t0 : Nat) (cs : List Chunk) (h : ∀ c ∈ cs, 0 < c.size) :
    (stopRecording (feedChunks (startRecording initialRecState t0 true true) cs)).2.1 = some cs := by
  rw [feedChunks_append _ _ h]
  have h1 : (startRecording initialRecState t0 true true).chunks = [] := rfl
  have h2 : (startRecording initialRecState t0 true true).hasMediaRecorder = true := rfl
  have h3 : (startRecording initialRecState t0 true true).mrState = MRState.recording := rfl
  unfold stopRecording
  simp [h1, h2, h3]

/-- Witness for C7 with two concrete chunks. -/
theorem c7_blob_witness :
    (stopRecording (feedChunks (startRecording initialRecState 0 true true)
      [⟨1, 100⟩, ⟨2, 200⟩])).2.1 = some [⟨1, 100⟩, ⟨2, 200⟩] :=
  c7_blob_is_fifo_concatenation 0 [⟨1, 100⟩, ⟨2, 200⟩] (by decide)

/-- Deleting a key from the store makes lookups of that key fail. -/
theorem storeGet_storeDelete (st : List CheckpointRecord) (id : String) :
    storeGet (storeDelete st id) id = none := by
  unfold storeGet storeDelete
  rw [List.find?_eq_none]
  intro x hx
  have hmem := (List.mem_filter.mp hx).2
  simp at hmem ⊢
  exact hmem

/-- Every record in `storePut st r` is an old record of `st` or is `r`. -/
theorem mem_storePut (st : List CheckpointRecord) (r x : CheckpointRecord)
    (h : x ∈ storePut st r) : x ∈ st ∨ x = r := by
  unfold storePut at h
  by_cases hc : st.any (fun y => y.id = r.id)
  · rw [if_pos hc] at h
    obtain ⟨a, ha, hax⟩ := List.mem_map.mp h
    by_cases hid : a.id = r.id
    · right
      rw [← hax, if_pos hid]
    · left
      rw [← hax, if_neg hid]
      exact ha
  · rw [if_neg hc] at h
    rcases List.mem_append.mp h with h | h
    · exact Or.inl h
    · exact Or.inr (List.mem_singleton.mp h)

/-- C8 (counterexample): checkpoint writes do *not* occur only every 5th
chunk.  With a single buffered chunk (`1 % 5 ≠ 0`, so the chunk handler wrote
nothing), `pauseRecording` of the offline hook immediately writes a
checkpoint record to the store. -/
theorem c8_pause_writes_checkpoint_counterexample :
    offOneChunk.chunks.length = 1 ∧ ¬ (1 % 5 = 0) ∧
    offOneChunk.store = [] ∧
    (offPauseRecording offOneChunk 2000 false).store =
      [⟨"recording_0", [⟨0, 5⟩], 2000, false⟩] := by
  decide

/-- C8 (amended): *chunk-triggered* checkpoint writes occur exactly when the
buffered chunk count reaches a multiple of 5 (and a session id exists) — not
on every chunk; additionally `pauseRecording` forces an immediate checkpoint
write regardless of the chunk count.  A checkpoint write failure is swallowed
(store, error and the freshly buffered chunk are all as if the write never
happened, and no error is surfaced).  On `stopRecording` the finalized blob
is produced and the session's checkpoint record is deleted; a deletion
failure is likewise swallowed (store untouched, blob still produced, no
error surfaced). -/
theorem c8_checkpoint_policy (so : OffState) (c : Chunk) (now : Nat) (hc : 0 < c.size) :
    ((offDataavailable so c now false).store =
      if (so.chunks.length + 1) % 5 = 0 ∧ so.recordingId ≠ "" then
        storePut so.store ⟨so.recordingId, so.chunks ++ [c], now, false⟩
      else so.store) ∧
    (offDataavailable so c now true).store = so.store ∧
    (offDataavailable so c now true).chunks = so.chunks ++ [c] ∧
    (offDataavailable so c now true).error = so.error ∧
    (so.hasMediaRecorder = true → so.mrState = MRState.recording →
      (offStopRecording so false).2.1 = some so.chunks ∧
      storeGet (offStopRecording so false).1.store so.recordingId = none ∧
      (offStopRecording so true).1.store = so.store ∧
      (offStopRecording so true).2.1 = some so.chunks ∧
      (offStopRecording so true).1.error = so.error) := by
  refine ⟨?_, ?_, ?_, ?_, ?_⟩
  · unfold offDataavailable saveToIndexedDB
    rw [if_pos hc]
    by_cases h5 : (so.chunks.length + 1) % 5 = 0 <;> by_cases hid : so.recordingId = "" <;>
      simp [h5, hid]
  · unfold offDataavailable saveToIndexedDB
    rw [if_pos hc]
    by_cases h5 : (so.chunks.length + 1) % 5 = 0 <;> by_cases hid : so.recordingId = "" <;>
      simp [h5, hid]
  · unfold offDataavailable saveToIndexedDB
    rw [if_pos hc]
    by_cases h5 : (so.chunks.length + 1) % 5 = 0 <;> by_cases hid : so.recordingId = "" <;>
      simp [h5, hid]
  · unfold offDataavailable saveToIndexedDB
    rw [if_pos hc]
    by_cases h5 : (so.chunks.length + 1) % 5 = 0 <;> by_cases hid : so.recordingId = "" <;>
      simp [h5, hid]
  · intro hmr hms
    unfold offStopRecording
    simp [hmr, hms]
    exact storeGet_storeDelete _ _

/-- Witness for C8 at a concrete offline state with one buffered chunk. -/
theorem c8_checkpoint_witness :
    ((offDataavailable offOneChunk ⟨1, 7⟩ 3000 false).store =
      if (offOneChunk.chunks.length + 1) % 5 = 0 ∧ offOneChunk.recordingId ≠ "" then
        storePut offOneChunk.store ⟨offOneChunk.recordingId, offOneChunk.chunks ++ [⟨1, 7⟩], 3000, false⟩
      else offOneChunk.store) ∧
    (offDataavailable offOneChunk ⟨1, 7⟩ 3000 true).store = offOneChunk.store ∧
    (offDataavailable offOneChunk ⟨1, 7⟩ 3000 true).chunks = offOneChunk.chunks ++ [⟨1, 7⟩] ∧
    (offDataavailable offOneChunk ⟨1, 7⟩ 3000 true).error = offOneChunk.error ∧
    (offOneChunk.hasMediaRecorder = true → offOneChunk.mrState = MRState.recording →
      (offStopRecording offOneChunk false).2.1 = some offOneChunk.chunks ∧
      storeGet (offStopRecording offOneChunk false).1.store offOneChunk.recordingId = none ∧
      (offStopRecording offOneChunk true).1.store = offOneChunk.store ∧
      (offStopRecording offOneChunk true).2.1 = some offOneChunk.chunks ∧
      (offStopRecording offOneChunk true).1.error = offOneChunk.error) :=
  c8_checkpoint_policy offOneChunk ⟨1, 7⟩ 3000 (by decide)

/-- C10: a `dataavailable` event with a zero-byte payload leaves the chunk
buffer (and, in the offline hook, the whole state) unchanged; only chunks of
strictly positive size are appended, so the buffer — hence the finalized
blob and every checkpoint record written from it — contains only non-empty
chunks. -/
theorem c10_zero_size_chunks_never_buffered (s : RecState) (so : OffState) (c : Chunk)
    (now : Nat) (fl : Bool) :
    (c.size = 0 → dataavailable s c = s ∧ offDataavailable so c now fl = so) ∧
    ((∀ x ∈ s.chunks, 0 < x.size) → ∀ x ∈ (dataavailable s c).chunks, 0 < x.size) ∧
    ((∀ x ∈ so.chunks, 0 < x.size) → ∀ x ∈ (offDataavailable so c now fl).chunks, 0 < x.size) ∧
    ((∀ x ∈ so.chunks, 0 < x.size) →
      ∀ r ∈ (offDataavailable so c now fl).store, r ∈ so.store ∨ ∀ x ∈ r.chunks, 0 < x.size) := by
  refine ⟨fun h0 => ⟨?_, ?_⟩, ?_, ?_, ?_⟩
  · unfold dataavailable
    rw [if_neg (by omega)]
  · unfold offDataavailable
    rw [if_neg (by omega)]
  · intro hall x hx
    unfold dataavailable at hx
    by_cases hc : 0 < c.size
    · rw [if_pos hc] at hx
      rcases List.mem_append.mp hx with h | h
      · exact hall x h
      · rw [List.mem_singleton.mp h]
        exact hc
    · rw [if_neg hc] at hx
      exact hall x hx
  · intro hall x hx
    unfold offDataavailable at hx
    by_cases hc : 0 < c.size
    · rw [if_pos hc] at hx
      have hmem : x ∈ so.chunks ++ [c] := by
        by_cases h5 : (so.chunks ++ [c]).length % 5 = 0
        · rw [if_pos h5] at hx
          unfold saveToIndexedDB at hx
          split_ifs at hx <;> exact hx
        · rw [if_neg h5] at hx
          exact hx
      rcases List.mem_append.mp hmem with h | h
      · exact hall x h
      · rw [List.mem_singleton.mp h]
        exact hc
    · rw [if_neg hc] at hx
      exact hall x hx
  · intro hall r hr
    unfold offDataavailable at hr
    by_cases hc : 0 < c.size
    · rw [if_pos hc] at hr
      by_cases h5 : (so.chunks ++ [c]).length % 5 = 0
      · rw [if_pos h5] at hr
        unfold saveToIndexedDB at hr
        split_ifs at hr with hg hf
        · exact Or.inl hr
        · rcases mem_storePut _ _ _ hr with h | h
          · exact Or.inl h
          · right
            rw [h]
            intro x hx
            rcases List.mem_append.mp hx with h2 | h2
            · exact hall x h2
            · rw [List.mem_singleton.mp h2]
              exact hc
        · exact Or.inl hr
      · rw [if_neg h5] at hr
        exact Or.inl hr
    · rw [if_neg hc] at hr
      exact Or.inl hr

/-- Witness for C10: a zero-size chunk leaves both hooks untouched, and the
positivity invariant holds after a positive-size chunk. -/
theorem c10_witness :
    (dataavailable recAfterStart ⟨9, 0⟩ = recAfterStart ∧
      offDataavailable offAfterStart ⟨9, 0⟩ 1000 false = offAfterStart) ∧
    (∀ x ∈ (dataavailable recAfterStart ⟨9, 0⟩).chunks, 0 < x.size) ∧
    (∀ x ∈ (offDataavailable offAfterStart ⟨9, 0⟩ 1000 false).chunks, 0 < x.size) ∧
    (∀ r ∈ (offDataavailable offAfterStart ⟨9, 0⟩ 1000 false).store,
      r ∈ offAfterStart.store ∨ ∀ x ∈ r.chunks, 0 < x.size) := by
  have h := c10_zero_size_chunks_never_buffered recAfterStart offAfterStart ⟨9, 0⟩ 1000 false
  exact ⟨h.1 rfl, h.2.1 (by decide), h.2.2.1 (by decide), h.2.2.2 (by decide)⟩

/-- One `onresult` event appends exactly the event's finalized text to the
accumulated finalized transcript (the `if (final)` guard makes no
difference when the addition is empty). -/
theorem onresult_finalTranscript (s : RecState) (rs : List SRResult) :
    (onresult s rs).finalTranscript = s.finalTranscript ++ (partResults rs).1 := by
  unfold onresult
  by_cases h : (partResults rs).1 = ""
  · simp [h, String.append_empty]
  · simp [h]

/-- Offline-hook version of `onresult_finalTranscript`. -/
theorem offOnresult_finalTranscript (so : OffState) (rs : List SRResult) :
    (offOnresult so rs).finalTranscript = so.finalTranscript ++ (partResults rs).1 := by
  unfold offOnresult
  by_cases h : (partResults rs).1 = ""
  · simp [h, String.append_empty]
  · simp [h]

/-- Across any sequence of recognition events, the finalized transcript
only grows by a suffix. -/
theorem foldl_onresult_final (s : RecState) (rss : List (List SRResult)) :
    ∃ tail, (rss.foldl onresult s).finalTranscript = s.finalTranscript ++ tail := by
  induction rss generalizing s with
  | nil => exact ⟨"", (String.append_empty _).symm⟩
  | cons rs rss ih =>
      obtain ⟨t2, ht2⟩ := ih (onresult s rs)
      refine ⟨(partResults rs).1 ++ t2, ?_⟩
      rw [List.foldl_cons, ht2, onresult_finalTranscript, String.append_assoc]

/-- C4: on every recognition event the finalized transcript is only appended
to (the old value stays as an unchanged prefix, so its length is
monotonically non-decreasing, across single events and across any event
sequence), the interim transcript is replaced wholesale by the event's
interim text (independently of its previous value), interim text is never
persisted into the finalized transcript, and the live transcript is
`finalized ++ interim`; the offline hook appends identically. -/
theorem c4_finalized_append_only_interim_replaced (s : RecState) (so : OffState)
    (rs : List SRResult) (rss : List (List SRResult)) :
    (onresult s rs).finalTranscript = s.finalTranscript ++ (partResults rs).1 ∧
    (onresult s rs).interimTranscript = (partResults rs).2 ∧
    (onresult s rs).liveTranscript = (onresult s rs).finalTranscript ++ (partResults rs).2 ∧
    s.finalTranscript.length ≤ (onresult s rs).finalTranscript.length ∧
    (∃ tail, (rss.foldl onresult s).finalTranscript = s.finalTranscript ++ tail) ∧
    s.finalTranscript.length ≤ (rss.foldl onresult s).finalTranscript.length ∧
    (offOnresult so rs).finalTranscript = so.finalTranscript ++ (partResults rs).1 := by
  refine ⟨onresult_finalTranscript s rs, rfl, rfl, ?_, foldl_onresult_final s rss, ?_,
    offOnresult_finalTranscript so rs⟩
  · rw [onresult_finalTranscript, String.length_append]
    omega
  · obtain ⟨tail, ht⟩ := foldl_onresult_final s rss
    rw [ht, String.length_append]
    omega

/-- Running events distributes over list append. -/
theorem runEvents_append (s : RecState) (l1 l2 : List TEvent) :
    runEvents s (l1 ++ l2) = runEvents (runEvents s l1) l2 := by
  simp [runEvents]

/-- Overwriting the duration with its current value is the identity. -/
theorem setDuration_self (s : RecState) : setDuration s s.duration = s := by
  cases s
  rfl

/-- Only the last duration overwrite survives. -/
theorem setDuration_setDuration (s : RecState) (a b : Nat) :
    setDuration (setDuration s a) b = setDuration s b := by
  cases s
  rfl

/-- Running the `n` timer ticks of a recording segment that started at
wall-clock `t` with accumulated value `acc` leaves every field unchanged
except the displayed duration, which ends at `acc + n`. -/
theorem runTicks (s : RecState) (t acc : Nat) (n : Nat) (hrun : s.timerRunning = true)
    (hst : s.startTime = t) (hpd : s.pausedDuration = acc) (hd : s.duration = acc) :
    runEvents s ((List.range n).map fun k => TEvent.tick (t + 1000 * (k + 1))) =
      setDuration s (acc + n) := by
  induction n with
  | zero =>
      simp only [List.range_zero, List.map_nil, Nat.add_zero, runEvents, List.foldl_nil]
      rw [← hd, setDuration_self]
  | succ n ih =>
      rw [List.range_succ, List.map_append, runEvents_append, ih]
      have h1 : t + 1000 * (n + 1) - t = 1000 * (n + 1) := by omega
      have h2 : 1000 * (n + 1) / 1000 = n + 1 := Nat.mul_div_cancel_left _ (by norm_num)
      simp only [List.map_cons, List.map_nil, runEvents, List.foldl_cons, List.foldl_nil,
        stepEv, timerTick, setDuration, hrun, hst, hpd, h1, h2]
      simp [hrun, hst, hpd, h1, h2, Nat.add_comm]

/-- A pause at displayed duration `acc + d` followed by a resume at
wall-clock `t2` re-establishes the recording-segment invariant with the
frozen duration as the new accumulated baseline. -/
theorem seg_invariant_step (s : RecState) (t acc d t2 : Nat) (h : Seg s t acc) :
    Seg (resumeRecording (pauseRecording (setDuration s (acc + d))) t2) t2 (acc + d) := by
  obtain ⟨h1, h2, h3, h4, h5, h6⟩ := h
  unfold Seg pauseRecording resumeRecording setDuration
  simp [h2, h3]

/-- Final displayed duration over a whole session trace: each recording
segment contributes the floor of its length in seconds. -/
theorem runSegs (segs : List (Nat × Nat)) (last t acc : Nat) (s : RecState) (h : Seg s t acc) :
    (runEvents s (segEvents t segs last)).duration =
      acc + ((segs.map fun q => q.1 / 1000).sum + last / 1000) := by
  induction segs generalizing t acc s with
  | nil =>
      obtain ⟨h1, h2, h3, h4, h5, h6⟩ := h
      show (runEvents s (tickEvents t last)).duration = _
      rw [show tickEvents t last =
            (List.range (last / 1000)).map fun k => TEvent.tick (t + 1000 * (k + 1)) from rfl,
          runTicks s t acc _ h1 h4 h5 h6]
      simp [setDuration]
  | cons q rest ih =>
      obtain ⟨d, p⟩ := q
      obtain ⟨h1, h2, h3, h4, h5, h6⟩ := h
      show (runEvents s (tickEvents t d ++ TEvent.pause (t + d) ::
        TEvent.resume (t + d + p) :: segEvents (t + d + p) rest last)).duration = _
      rw [runEvents_append,
          show tickEvents t d =
            (List.range (d / 1000)).map fun k => TEvent.tick (t + 1000 * (k + 1)) from rfl,
          runTicks s t acc _ h1 h4 h5 h6]
      rw [show runEvents (setDuration s (acc + d / 1000)) (TEvent.pause (t + d) ::
            TEvent.resume (t + d + p) :: segEvents (t + d + p) rest last) =
          runEvents (resumeRecording (pauseRecording (setDuration s (acc + d / 1000)))
            (t + d + p)) (segEvents (t + d + p) rest last) from rfl]
      rw [ih _ _ _ (seg_invariant_step s t acc (d / 1000) (t + d + p) ⟨h1, h2, h3, h4, h5, h6⟩)]
      simp only [List.map_cons, List.sum_cons]
      omega

/-- A successful `startRecording` from the initial state establishes the
recording-segment invariant with zero accumulated duration. -/
theorem seg_start (t0 : Nat) : Seg (startRecording initialRecState t0 true true) t0 0 :=
  ⟨rfl, rfl, rfl, rfl, rfl, rfl⟩

/-- Per-element floor bounds, summed: the sum of `x / 1000` over a list,
scaled back by 1000, underestimates the true sum by less than 1000 per
element. -/
theorem sum_div_bounds (xs : List Nat) :
    1000 * (xs.map fun x => x / 1000).sum ≤ xs.sum ∧
    xs.sum ≤ 1000 * (xs.map fun x => x / 1000).sum + 999 * xs.length := by
  induction xs with
  | nil => simp
  | cons x xs ih =>
      simp only [List.map_cons, List.sum_cons, List.length_cons]
      obtain ⟨ih1, ih2⟩ := ih
      omega

/-- C3 (counterexample): the session "record 1900 ms, pause 100 ms, resume,
record 1900 ms, stop" spends 3800 ms of wall-clock time recording but
reports a final duration of 2 s — an error of 1800 ms, exceeding the claimed
tolerance of one 1-second tick. -/
theorem c3_one_tick_tolerance_counterexample :
    (runEvents (startRecording initialRecState 0 true true)
      (segEvents 0 [(1900, 100)] 1900)).duration = 2 ∧
    1900 + 1900 = 3800 ∧
    3800 > 1000 * 2 + 1000 := by
  refine ⟨?_, rfl, by norm_num⟩
  rfl

/-- C3 (amended): for every valid alternating pause/resume sequence —
segments `segs = [(d1, p1), ...]` (record `di` ms, pause `pi` ms) followed by
a final stretch of `last` ms — the final reported duration equals the sum of
`⌊di / 1000⌋` over all recording segments: the wall-clock recording time is
under-reported by less than one 1-second tick *per recording segment*
(`segs.length + 1` ticks in total), not one tick overall. -/
theorem c3_duration_is_sum_of_segment_floors (t0 last : Nat) (segs : List (Nat × Nat)) :
    (runEvents (startRecording initialRecState t0 true true) (segEvents t0 segs last)).duration =
      (segs.map fun q => q.1 / 1000).sum + last / 1000 ∧
    1000 * ((segs.map fun q => q.1 / 1000).sum + last / 1000) ≤ (segs.map Prod.fst).sum + last ∧
    (segs.map Prod.fst).sum + last <
      1000 * ((segs.map fun q => q.1 / 1000).sum + last / 1000) + 1000 * (segs.length + 1) := by
  refine ⟨?_, ?_, ?_⟩
  · have h := runSegs segs last t0 0 _ (seg_start t0)
    simpa using h
  · have hb := (sum_div_bounds (segs.map Prod.fst ++ [last])).1
    simp only [List.map_append, List.sum_append, List.map_map, Function.comp_def,
      List.map_cons, List.map_nil, List.sum_cons, List.sum_nil] at hb
    omega
  · have hb := (sum_div_bounds (segs.map Prod.fst ++ [last])).2
    simp only [List.map_append, List.sum_append, List.map_map, Function.comp_def,
      List.length_append, List.length_cons, List.length_nil, List.length_map,
      List.map_cons, List.map_nil, List.sum_cons, List.sum_nil] at hb
    omega
